import Mathlib

/-!
Shallow embedding of `src/upload_dicom_files.py`, a command-line tool that
imports DICOM files and archives into an Orthanc server.

Modelling conventions:

* A DICOM dataset (the object returned by pydicom's `dcmread`) is modelled as
  an association list from tag keywords to string values (`Dataset`).
* Byte buffers are modelled symbolically by the inductive `Payload`: bytes
  that `dcmread` parses into a dataset `ds` are `Payload.dicom ds`, bytes that
  decode as JSON text are `Payload.jsonText s`, and all other byte buffers are
  `Payload.invalid`.  The external parsers (`pydicom.dcmread`, `json.loads`)
  are out-of-scope collaborators per the specification, so their outcomes are
  carried by the payload constructor rather than recomputed from raw bytes.
* The bytes stored on disk for one input file are `FileBytes`: a plain file,
  a gzip/bzip2 single-stream file (carrying both the raw on-disk bytes viewed
  as a payload and the decompressed payload), an openable tar or zip archive
  with its member entries, or `corrupt` bytes that no archive opener accepts.
* Network traffic and console output relevant to the claims are recorded in a
  trace of `Effect`s; the POST/GET responses of the Orthanc server are an
  environment parameter `Net`.  Purely cosmetic progress prints ("Uploading:
  ...", "Uncompressing ...") are not traced.
* Python exceptions that abort the run are `Except.error`; all per-file entry
  points return `Except String (Session × List Effect)`.
-/

namespace UploadDicomFiles

/-- A parsed DICOM dataset: tag keyword ↦ string value, in file order. -/
structure Dataset where
  tags : List (String × String)
  deriving DecidableEq, Repr

/-- Symbolic byte buffer: what the external parsers make of the bytes. -/
inductive Payload where
  /-- Bytes that `pydicom.dcmread` parses into the dataset `ds`. -/
  | dicom (ds : Dataset)
  /-- Bytes whose text decoding `json.loads` accepts. -/
  | jsonText (s : String)
  /-- Any other byte buffer (binary junk, gzip/tar headers, empty file, ...). -/
  | invalid
  deriving DecidableEq, Repr

/-- `REQUIRED_TAGS_DEFAULT_VALUES` from the source, in insertion order. -/
def REQUIRED_TAGS_DEFAULT_VALUES : List (String × String) :=
  [("PatientID", "0"),
   ("SOPInstanceUID", "0"),
   ("SeriesInstanceUID", "0"),
   ("StudyInstanceUID", "0")]

/-- `keyword in ds` (pydicom membership by keyword). -/
def hasTag (ds : Dataset) (k : String) : Bool :=
  (ds.tags.lookup k).isSome

/-- `setattr(ds, keyword, value)`: replace the value if the keyword is
present, otherwise append the new element. -/
def setTag (ds : Dataset) (k v : String) : Dataset :=
  if hasTag ds k then
    ⟨ds.tags.map fun kv => if kv.1 = k then (k, v) else kv⟩
  else
    ⟨ds.tags ++ [(k, v)]⟩

/-- One iteration of the loop in `validate_dicom_tags`:
`if keyword not in ds: setattr(ds, keyword, value)`. -/
def tagStep (ds : Dataset) (kv : String × String) : Dataset :=
  if hasTag ds kv.1 then ds else setTag ds kv.1 kv.2

/-- The tag-fixing loop of `validate_dicom_tags`, folded over
`REQUIRED_TAGS_DEFAULT_VALUES.items()` in insertion order. -/
def fixTags (ds : Dataset) : Dataset :=
  REQUIRED_TAGS_DEFAULT_VALUES.foldl tagStep ds

/-- `dcmread`: succeeds exactly on payloads that are well-formed DICOM. -/
def dcmread : Payload → Option Dataset
  | .dicom ds => some ds
  | _ => none

/-- `validate_dicom_tags`: parse the bytes with `dcmread` (raising
`InvalidDicomError` on failure), default the four required tags, and
re-serialize the dataset with `save_as`. -/
def validate_dicom_tags (p : Payload) : Except String Payload :=
  match dcmread p with
  | none => .error "InvalidDicomError"
  | some ds => .ok (.dicom (fixTags ds))

/-- `is_json`: `json.loads(content.decode())` succeeds or not. -/
def is_json : Payload → Bool
  | .jsonText _ => true
  | _ => false

/-- The parsed command-line arguments used by the pipeline. -/
structure Args where
  url : String
  force : Bool
  clear : Bool
  verbose : Bool
  ignore_errors : Bool
  deriving Repr

/-- Process-wide import session state (the module-level globals). -/
structure Session where
  IMPORTED_STUDIES : List String
  COUNT_ERROR : Nat
  COUNT_DICOM : Nat
  COUNT_JSON : Nat
  deriving DecidableEq, Repr

/-- The initial values of the module-level globals. -/
def initialSession : Session :=
  { IMPORTED_STUDIES := [], COUNT_ERROR := 0, COUNT_DICOM := 0,
    COUNT_JSON := 0 }

/-- The JSON body of a successful `POST {url}/instances` response. -/
structure UploadInfo where
  ParentStudy : String
  ParentPatient : String
  ID : String
  deriving DecidableEq, Repr

/-- Outcome of `POST {url}/instances`: a 2xx response with its parsed JSON
dict, or a non-2xx response with its parsed JSON error body (per the REST
contract the bodies are well-formed JSON). -/
inductive PostResponse where
  | success (info : UploadInfo)
  | failure (body : String)
  deriving DecidableEq, Repr

/-- The remote Orthanc server, as an environment: the response to posting a
payload to `/instances`, and the short-format tag mapping returned by
`GET /instances/{id}/tags?short`. -/
structure Net where
  post : Payload → PostResponse
  tags : String → List (String × String)

/-- Observable actions of the pipeline that the claims talk about. -/
inductive Effect where
  /-- `upload_buffer` was invoked with this payload (one Upload Sink call). -/
  | sinkCall (dicom : Payload)
  /-- Network: `POST {url}/instances` with this payload as body. -/
  | postInstances (dicom : Payload)
  /-- Network: `GET {url}/instances/{id}/tags?short`. -/
  | getTags (id : String)
  /-- `print(f"There was an error uploading DICOM: {response.json()}")`. -/
  | printErrorBody (body : String)
  /-- `print('  not a valid DICOM file, ignoring it')`. -/
  | printIgnoreNotice
  /-- The "New imported study:" block, with the Orthanc patient and study
  IDs and the two DICOM tag values (or `"(empty)"`). -/
  | printNewStudy (parentPatient parentStudy dicomPatientId
      dicomStudyUid : String)
  deriving DecidableEq, Repr

/-- `upload_buffer(dicom)`: the Upload Sink.  Skips JSON payloads, otherwise
posts the bytes to `/instances`; on failure counts an error (printing the
error body unless `--ignore-errors`); on success counts the instance and, if
the parent study is new this session, records it, fetches the instance's
short tags and prints the "New imported study:" block. -/
def upload_buffer (a : Args) (env : Net) (dicom : Payload) (s : Session) :
    Session × List Effect :=
  if is_json dicom then
    ({ s with COUNT_JSON := s.COUNT_JSON + 1 }, [.sinkCall dicom])
  else
    match env.post dicom with
    | .failure body =>
        let s' := { s with COUNT_ERROR := s.COUNT_ERROR + 1 }
        if a.ignore_errors then
          (s', [.sinkCall dicom, .postInstances dicom] ++
            if a.verbose then [.printIgnoreNotice] else [])
        else
          (s', [.sinkCall dicom, .postInstances dicom, .printErrorBody body])
    | .success info =>
        let s' := { s with COUNT_DICOM := s.COUNT_DICOM + 1 }
        if info.ParentStudy ∈ s'.IMPORTED_STUDIES then
          (s', [.sinkCall dicom, .postInstances dicom])
        else
          let s'' := { s' with
            IMPORTED_STUDIES := info.ParentStudy :: s'.IMPORTED_STUDIES }
          let t := env.tags info.ID
          (s'', [.sinkCall dicom, .postInstances dicom, .getTags info.ID,
            .printNewStudy info.ParentPatient info.ParentStudy
              ((t.lookup "0010,0020").getD "(empty)")
              ((t.lookup "0020,000d").getD "(empty)")])

/-- A sequence of Upload Sink invocations, one per payload, threading the
session state (how Decoder Dispatch feeds extracted payloads during a run). -/
def runUploads (a : Args) (env : Net) :
    List Payload → Session → Session × List Effect
  | [], s => (s, [])
  | p :: rest, s =>
      let r := upload_buffer a env p s
      let r2 := runUploads a env rest r.1
      (r2.1, r.2 ++ r2.2)

/-- The payloads handed to the Upload Sink, in order, within a trace. -/
def sinkPayloads (effs : List Effect) : List Payload :=
  effs.filterMap fun e =>
    match e with
    | .sinkCall p => some p
    | _ => none

/-- The network actions (POSTs and GETs) within a trace. -/
def networkCalls (effs : List Effect) : List Effect :=
  effs.filter fun e =>
    match e with
    | .postInstances _ => true
    | .getTags _ => true
    | _ => false

/-! ### New-study deduplication (C9) -/

/-- Whether an effect is the "New imported study:" block for study `st`. -/
def isNewStudyFor (st : String) (e : Effect) : Bool :=
  match e with
  | .printNewStudy _ parentStudy _ _ => parentStudy == st
  | _ => false

/-- How many times the "New imported study:" block for `st` appears. -/
def countNewStudy (st : String) (effs : List Effect) : Nat :=
  (effs.filter (isNewStudyFor st)).length

/-- Whether uploading payload `p` is a successful import into study `st`:
it is not skipped as JSON and the server files it under parent study `st`. -/
def isSuccessFor (env : Net) (st : String) (p : Payload) : Bool :=
  !is_json p &&
    match env.post p with
    | .success info => info.ParentStudy == st
    | .failure _ => false

/-- Number of successful imports into study `st` among the payloads `ps`. -/
def successCount (env : Net) (st : String) (ps : List Payload) : Nat :=
  (ps.filter (isSuccessFor env st)).length

/-! ### Decoder Dispatch -/

/-- Compression wrapped around a tar archive's bytes. -/
inductive TarComp where
  | plain
  | gz
  | bz2
  deriving DecidableEq, Repr

/-- One member entry of a tar or zip archive: its internal path, whether it
is a regular file (tar `isreg()`), its stored byte size (zip `file_size`)
and its extracted bytes as a payload. -/
structure ArchiveEntry where
  name : String
  isRegular : Bool
  size : Nat
  data : Payload
  deriving DecidableEq, Repr

/-- The bytes stored on disk for one input file. -/
inductive FileBytes where
  /-- An uncompressed file whose bytes parse as `raw`. -/
  | plainFile (raw : Payload)
  /-- A gzip file: the raw on-disk bytes parse as `raw`; decompressing
  yields bytes parsing as `inner`. -/
  | gzFile (raw : Payload) (inner : Payload)
  /-- A bzip2 file, fields as in `gzFile`. -/
  | bz2File (raw : Payload) (inner : Payload)
  /-- An openable tar archive: its compression and its member entries. -/
  | tarFile (comp : TarComp) (entries : List ArchiveEntry)
  /-- An openable zip archive and its member entries. -/
  | zipFile (entries : List ArchiveEntry)
  /-- Bytes no archive opener accepts (corrupt or mislabelled). -/
  | corrupt
  deriving DecidableEq, Repr

/-- Reading the whole file from its path, as `open(file_path)` followed by
parsing would see it.  Tar/zip/corrupt bytes are binary junk to `dcmread`
and `json.loads`. -/
def FileBytes.rawPayload : FileBytes → Payload
  | .plainFile raw => raw
  | .gzFile raw _ => raw
  | .bz2File raw _ => raw
  | _ => .invalid

/-- One input file: its path (used only for suffix dispatch) and bytes. -/
structure InputFile where
  path : String
  bytes : FileBytes

/-- `upload_file(file_path)`: tag-repair the on-disk bytes (raising
`InvalidDicomError` if they are not DICOM) and hand them to the sink. -/
def upload_file (a : Args) (env : Net) (fb : FileBytes) (s : Session) :
    Except String (Session × List Effect) :=
  match validate_dicom_tags fb.rawPayload with
  | .error e => .error e
  | .ok dicom => .ok (upload_buffer a env dicom s)

/-- `upload_bzip2(file_path)`: `bz2.BZ2File(file_path, 'rb')` is opened as
`f`, but `f` is never read (so the bzip2 stream is never decompressed and
never format-checked); the body re-reads the original path:
`dicom = validate_dicom_tags(file_path)`. -/
def upload_bzip2 (a : Args) (env : Net) (fb : FileBytes) (s : Session) :
    Except String (Session × List Effect) :=
  match validate_dicom_tags fb.rawPayload with
  | .error e => .error e
  | .ok dicom => .ok (upload_buffer a env dicom s)

/-- `upload_gzip(file_path)`: `gzip.open(file_path, 'rb')` is opened as `f`,
but `f` is never read (gzip streams are checked lazily, on first read); the
body re-reads the original path: `dicom = validate_dicom_tags(file_path)`. -/
def upload_gzip (a : Args) (env : Net) (fb : FileBytes) (s : Session) :
    Except String (Session × List Effect) :=
  match validate_dicom_tags fb.rawPayload with
  | .error e => .error e
  | .ok dicom => .ok (upload_buffer a env dicom s)

/-- The `for item in tar:` loop of `upload_tar`: every entry with
`item.isreg()` is extracted and fed to `upload_buffer`. -/
def uploadTarEntries (a : Args) (env : Net) :
    List ArchiveEntry → Session → Session × List Effect
  | [], s => (s, [])
  | item :: rest, s =>
      if item.isRegular then
        let r := upload_buffer a env item.data s
        let r2 := uploadTarEntries a env rest r.1
        (r2.1, r.2 ++ r2.2)
      else uploadTarEntries a env rest s

/-- Whether `tarfile.open(file_path, decoder)` accepts a tar stream with
this compression: mode `'r'` is transparent, `'r:gz'`/`'r:bz2'` require the
matching compression. -/
def tarDecoderOpens : String → TarComp → Bool
  | "r", _ => true
  | "r:gz", .gz => true
  | "r:bz2", .bz2 => true
  | _, _ => false

/-- `upload_tar(file_path, decoder)`: open the archive (raising
`tarfile.ReadError` if the bytes are not an acceptable tar stream) and run
the entry loop. -/
def upload_tar (a : Args) (env : Net) (decoder : String) (fb : FileBytes)
    (s : Session) : Except String (Session × List Effect) :=
  match fb with
  | .tarFile comp entries =>
      if tarDecoderOpens decoder comp then
        .ok (uploadTarEntries a env entries s)
      else
        .error "tarfile.ReadError"
  | _ => .error "tarfile.ReadError"

/-- The `for item in zip.infolist():` loop of `upload_zip`: every entry with
`item.file_size > 0` is extracted and fed to `upload_buffer` (the source
tests the stored size, not `is_dir()` or regularity). -/
def uploadZipEntries (a : Args) (env : Net) :
    List ArchiveEntry → Session → Session × List Effect
  | [], s => (s, [])
  | item :: rest, s =>
      if 0 < item.size then
        let r := upload_buffer a env item.data s
        let r2 := uploadZipEntries a env rest r.1
        (r2.1, r.2 ++ r2.2)
      else uploadZipEntries a env rest s

/-- `upload_zip(file_path)`: open the archive (raising
`zipfile.BadZipFile` if the bytes are not a zip) and run the entry loop. -/
def upload_zip (a : Args) (env : Net) (fb : FileBytes) (s : Session) :
    Except String (Session × List Effect) :=
  match fb with
  | .zipFile entries => .ok (uploadZipEntries a env entries s)
  | _ => .error "zipfile.BadZipFile"

/-- The characters of a path after its last `/`. -/
def basenameChars (cs : List Char) : List Char :=
  (cs.reverse.takeWhile fun c => c ≠ '/').reverse

/-- `os.path.splitext(file_path)[1]`: the extension starting at the last
dot of the basename; leading dots of the basename never start an
extension. -/
def splitext_ext (p : String) : String :=
  let base := basenameChars p.data
  let lead := (base.takeWhile fun c => c = '.').length
  let body := base.drop lead
  let revTail := body.reverse.takeWhile fun c => c ≠ '.'
  if revTail.length = body.length then ""
  else String.mk ('.' :: revTail.reverse)

/-- Python `str.endswith`. -/
def endswith (p suf : String) : Bool :=
  suf.data.isSuffixOf p.data

/-- `decode_file(file_path)`: route the file to an extraction strategy by
filename suffix, most specific first. -/
def decode_file (a : Args) (env : Net) (f : InputFile) (s : Session) :
    Except String (Session × List Effect) :=
  let extension := splitext_ext f.path
  if endswith f.path ".tar.bz2" then
    upload_tar a env "r:bz2" f.bytes s
  else if endswith f.path ".tar.gz" then
    upload_tar a env "r:gz" f.bytes s
  else if extension = ".zip" then
    upload_zip a env f.bytes s
  else if extension = ".tar" then
    upload_tar a env "r" f.bytes s
  else if extension = ".bz2" then
    upload_bzip2 a env f.bytes s
  else if extension = ".gz" then
    upload_gzip a env f.bytes s
  else
    upload_file a env f.bytes s

/-- Whether a per-file result is a Python exception aborting the run. -/
def isFatal : Except String (Session × List Effect) → Bool
  | .error _ => true
  | .ok _ => false

/-- The effect trace of a per-file result (`[]` if it aborted). -/
def effectsOf : Except String (Session × List Effect) → List Effect
  | .ok r => r.2
  | .error _ => []

/-- Number of Upload Sink invocations recorded in a trace. -/
def countSink (effs : List Effect) : Nat :=
  (sinkPayloads effs).length

/-! ### Run Controller: the `--clear` block -/

/-- Observable actions of the `if args.clear:` block at the top of the
run. -/
inductive ClearEffect where
  /-- `print('Removing the content of Orthanc')`. -/
  | printRemoving
  /-- Network: `GET {url}/studies`. -/
  | getStudiesList
  /-- `print('  %d studies are being removed...')`. -/
  | printCount (n : Nat)
  /-- Network: `DELETE {url}/studies/{id}`. -/
  | deleteStudy (id : String)
  /-- `print('Orthanc is now empty')`. -/
  | printEmpty
  /-- Asking the user to confirm the deletion.  No statement in the source
  produces this action. -/
  | confirmPrompt
  deriving DecidableEq, Repr

/-- The `if args.clear:` block: list the studies and delete each one.  The
source never reads `args.force` and contains no input prompt. -/
def clear_step (a : Args) (studies : List String) : List ClearEffect :=
  if a.clear then
    [.printRemoving, .getStudiesList, .printCount studies.length] ++
      studies.map .deleteStudy ++ [.printEmpty]
  else
    []

/-! ### Concrete fixtures used by witnesses and counterexamples -/

/-- Default argument values (`--url` default, all flags off). -/
def argsDefault : Args :=
  { url := "http://localhost:8042", force := false, clear := false,
    verbose := false, ignore_errors := false }

/-- A server that accepts every instance into the same study. -/
def envOk : Net :=
  { post := fun _ => .success
      { ParentStudy := "study1", ParentPatient := "patient1",
        ID := "inst1" },
    tags := fun _ => [("0010,0020", "P123"), ("0020,000d", "1.2.3")] }

/-- A server that rejects every instance with the same error body. -/
def envFail : Net :=
  { post := fun _ => .failure "not DICOM", tags := fun _ => [] }

/-! ### Decoder Dispatch fixtures and theorems -/

/-- A dataset carrying all four identity fields. -/
def dsFull : Dataset :=
  ⟨[("PatientID", "P1"), ("SOPInstanceUID", "I1"),
    ("SeriesInstanceUID", "S1"), ("StudyInstanceUID", "U1")]⟩

/-- A dataset lacking `PatientID`. -/
def dsMissing : Dataset :=
  ⟨[("SOPInstanceUID", "I1"), ("SeriesInstanceUID", "S1"),
    ("StudyInstanceUID", "U1")]⟩

/-- A regular tar member whose bytes are a DICOM image missing
`PatientID`. -/
def entryMissing : ArchiveEntry :=
  { name := "img.dcm", isRegular := true, size := 128,
    data := .dicom dsMissing }

/-- A zip directory entry and an empty regular-file entry. -/
def zipEntriesCex : List ArchiveEntry :=
  [{ name := "d/", isRegular := false, size := 0, data := .invalid },
   { name := "d/empty.dcm", isRegular := true, size := 0,
     data := .invalid }]

/-- `--ignore-errors --verbose` run configuration. -/
def argsIgnoreVerbose : Args :=
  { argsDefault with ignore_errors := true, verbose := true }

/-- `--clear` without `--force`. -/
def argsClearNoForce : Args :=
  { argsDefault with clear := true }

/-! ### Association-list lookup lemmas -/

theorem lookup_append_of_some {l l' : List (String × String)} {k : String}
    {v : String} (h : l.lookup k = some v) : (l ++ l').lookup k = some v := by
  induction l with
  | nil => simp [List.lookup] at h
  | cons hd tl ih =>
    simp only [List.lookup, List.cons_append] at h ⊢
    by_cases hk : k == hd.1
    · simpa [hk] using h
    · simp only [hk] at h ⊢
      exact ih h

theorem lookup_append_of_none {l l' : List (String × String)} {k : String}
    (h : l.lookup k = none) : (l ++ l').lookup k = l'.lookup k := by
  induction l with
  | nil => simp
  | cons hd tl ih =>
    simp only [List.lookup, List.cons_append] at h ⊢
    by_cases hk : k == hd.1
    · simp [hk] at h
    · simp only [hk] at h ⊢
      exact ih h

/-- `tagStep` keeps every lookup that already succeeds, with its value. -/
theorem tagStep_lookup_of_some {ds : Dataset} {k v : String}
    (kv : String × String) (h : ds.tags.lookup k = some v) :
    (tagStep ds kv).tags.lookup k = some v := by
  unfold tagStep setTag
  by_cases hk : hasTag ds kv.1
  · simp [hk, h]
  · simp only [hk, Bool.false_eq_true, if_false]
    exact lookup_append_of_some h

/-- `tagStep` with a key different from `k` does not change `k`'s lookup. -/
theorem tagStep_lookup_of_ne {ds : Dataset} {k : String}
    {kv : String × String} (hne : k ≠ kv.1) :
    (tagStep ds kv).tags.lookup k = ds.tags.lookup k := by
  unfold tagStep setTag
  by_cases hk : hasTag ds kv.1
  · simp [hk]
  · simp only [hk, Bool.false_eq_true, if_false]
    cases h : ds.tags.lookup k with
    | some v => exact lookup_append_of_some h
    | none =>
      rw [lookup_append_of_none h]
      have hb : (k == kv.1) = false := beq_eq_false_iff_ne.mpr hne
      simp [List.lookup, hb]

/-- After `tagStep ds (k, v)`, the key `k` is present; if it was absent its
value is now `v`. -/
theorem tagStep_lookup_self_of_none {ds : Dataset} {k v : String}
    (h : ds.tags.lookup k = none) :
    (tagStep ds (k, v)).tags.lookup k = some v := by
  unfold tagStep setTag hasTag
  simp only [h, Option.isSome_none, Bool.false_eq_true, if_false]
  rw [lookup_append_of_none h]
  simp [List.lookup]

/-- `fixTags` unfolded into its four loop iterations. -/
theorem fixTags_eq (ds : Dataset) :
    fixTags ds =
      tagStep (tagStep (tagStep (tagStep ds ("PatientID", "0"))
        ("SOPInstanceUID", "0")) ("SeriesInstanceUID", "0"))
        ("StudyInstanceUID", "0") := rfl

/-- `fixTags` keeps every lookup that already succeeds, with its value. -/
theorem fixTags_lookup_of_some {ds : Dataset} {k v : String}
    (h : ds.tags.lookup k = some v) : (fixTags ds).tags.lookup k = some v := by
  rw [fixTags_eq]
  exact tagStep_lookup_of_some _ (tagStep_lookup_of_some _
    (tagStep_lookup_of_some _ (tagStep_lookup_of_some _ h)))

/-- A required tag absent from the input is `"0"` after `fixTags`. -/
theorem fixTags_lookup_required_of_none {ds : Dataset} {kv : String × String}
    (hmem : kv ∈ REQUIRED_TAGS_DEFAULT_VALUES)
    (h : ds.tags.lookup kv.1 = none) :
    (fixTags ds).tags.lookup kv.1 = some "0" := by
  simp only [REQUIRED_TAGS_DEFAULT_VALUES, List.mem_cons,
    List.not_mem_nil, or_false] at hmem
  rw [fixTags_eq]
  rcases hmem with h1 | h1 | h1 | h1 <;> subst h1
  · exact tagStep_lookup_of_some _ (tagStep_lookup_of_some _
      (tagStep_lookup_of_some _ (tagStep_lookup_self_of_none h)))
  · apply tagStep_lookup_of_some
    apply tagStep_lookup_of_some
    apply tagStep_lookup_self_of_none
    rw [tagStep_lookup_of_ne (by decide)]
    exact h
  · apply tagStep_lookup_of_some
    apply tagStep_lookup_self_of_none
    rw [tagStep_lookup_of_ne (by decide), tagStep_lookup_of_ne (by decide)]
    exact h
  · apply tagStep_lookup_self_of_none
    rw [tagStep_lookup_of_ne (by decide), tagStep_lookup_of_ne (by decide),
      tagStep_lookup_of_ne (by decide)]
    exact h

/-- Every required tag is present after `fixTags`. -/
theorem fixTags_hasTag_required {ds : Dataset} {kv : String × String}
    (hmem : kv ∈ REQUIRED_TAGS_DEFAULT_VALUES) :
    hasTag (fixTags ds) kv.1 = true := by
  unfold hasTag
  cases h : ds.tags.lookup kv.1 with
  | some v => rw [fixTags_lookup_of_some h]; rfl
  | none => rw [fixTags_lookup_required_of_none hmem h]; rfl

/-- C3: for every image payload missing any subset of the four identity
fields (`PatientID`, `SOPInstanceUID`, `SeriesInstanceUID`,
`StudyInstanceUID`), `validate_dicom_tags` succeeds and its output dataset
contains all four fields; every field that was present keeps its original
value, and each absent required field is set to the default `"0"`. -/
theorem claim3_tag_repair_defaults_missing_identity_fields (ds : Dataset) :
    validate_dicom_tags (.dicom ds) = .ok (.dicom (fixTags ds)) ∧
    (∀ kv ∈ REQUIRED_TAGS_DEFAULT_VALUES, hasTag (fixTags ds) kv.1 = true) ∧
    (∀ k v, ds.tags.lookup k = some v →
      (fixTags ds).tags.lookup k = some v) ∧
    (∀ kv ∈ REQUIRED_TAGS_DEFAULT_VALUES, ds.tags.lookup kv.1 = none →
      (fixTags ds).tags.lookup kv.1 = some "0") := by
  refine ⟨rfl, ?_, ?_, ?_⟩
  · intro kv hmem
    exact fixTags_hasTag_required hmem
  · intro k v h
    exact fixTags_lookup_of_some h
  · intro kv hmem h
    exact fixTags_lookup_required_of_none hmem h

/-- Witness for C3 at a concrete dataset that has `StudyInstanceUID` but
lacks the other three identity fields. -/
theorem claim3_witness :
    (fixTags ⟨[("StudyInstanceUID", "1.2.3")]⟩).tags.lookup "PatientID"
        = some "0" ∧
    (fixTags ⟨[("StudyInstanceUID", "1.2.3")]⟩).tags.lookup "StudyInstanceUID"
        = some "1.2.3" :=
  ⟨(claim3_tag_repair_defaults_missing_identity_fields
      ⟨[("StudyInstanceUID", "1.2.3")]⟩).2.2.2 ("PatientID", "0")
      (by decide) (by decide),
   (claim3_tag_repair_defaults_missing_identity_fields
      ⟨[("StudyInstanceUID", "1.2.3")]⟩).2.2.1 "StudyInstanceUID" "1.2.3"
      (by decide)⟩

/-! ### Upload Sink lemmas -/

theorem sinkPayloads_append (l1 l2 : List Effect) :
    sinkPayloads (l1 ++ l2) = sinkPayloads l1 ++ sinkPayloads l2 :=
  List.filterMap_append l1 l2 _

/-- Each `upload_buffer` invocation records exactly one sink call, carrying
the payload it was given. -/
theorem sinkPayloads_upload_buffer (a : Args) (env : Net) (p : Payload)
    (s : Session) : sinkPayloads (upload_buffer a env p s).2 = [p] := by
  unfold upload_buffer
  by_cases hj : is_json p
  · simp [hj, sinkPayloads]
  · simp only [hj, Bool.false_eq_true, if_false]
    cases env.post p with
    | failure body =>
      by_cases hi : a.ignore_errors <;> by_cases hv : a.verbose <;>
        simp [hi, hv, sinkPayloads]
    | success info =>
      by_cases hm : info.ParentStudy ∈ s.IMPORTED_STUDIES <;>
        simp [hm, sinkPayloads]

/-- Across a run, the payloads reaching the Upload Sink are exactly the
payloads fed in, in order: a failed upload never stops later ones. -/
theorem sinkPayloads_runUploads (a : Args) (env : Net) (ps : List Payload) :
    ∀ s : Session, sinkPayloads (runUploads a env ps s).2 = ps := by
  induction ps with
  | nil => intro s; simp [runUploads, sinkPayloads]
  | cons p rest ih =>
    intro s
    simp only [runUploads, sinkPayloads_append, sinkPayloads_upload_buffer,
      ih]
    rfl

/-- C7: a payload recognized as structured text (JSON) by the Payload
Classifier only increments the JSON-skip counter: the success counter, error
counter and seen-studies set are unchanged, and no network call is made. -/
theorem claim7_json_payload_skipped_without_network (a : Args) (env : Net)
    (p : Payload) (s : Session) (h : is_json p = true) :
    (upload_buffer a env p s).1 =
      { s with COUNT_JSON := s.COUNT_JSON + 1 } ∧
    (upload_buffer a env p s).2 = [.sinkCall p] ∧
    networkCalls (upload_buffer a env p s).2 = [] := by
  unfold upload_buffer
  simp [h, networkCalls]

/-- Witness for C7: a concrete JSON payload fed to the sink. -/
theorem claim7_witness :
    (upload_buffer argsDefault envOk (.jsonText "[]") initialSession).1 =
      { initialSession with
          COUNT_JSON := initialSession.COUNT_JSON + 1 } ∧
    (upload_buffer argsDefault envOk (.jsonText "[]") initialSession).2 =
      [.sinkCall (.jsonText "[]")] ∧
    networkCalls
      (upload_buffer argsDefault envOk (.jsonText "[]") initialSession).2 =
      [] :=
  claim7_json_payload_skipped_without_network argsDefault envOk
    (.jsonText "[]") initialSession rfl

/-- C8: a non-2xx POST response increments the error counter by one, leaves
the success counter and seen-studies set unchanged, prints the server's
error body when ignore-errors mode is off, and the run continues: every
subsequent payload still reaches the Upload Sink. -/
theorem claim8_failed_upload_counts_error_and_continues (a : Args)
    (env : Net) (p : Payload) (s : Session) (body : String)
    (hj : is_json p = false) (hr : env.post p = .failure body) :
    (upload_buffer a env p s).1 =
      { s with COUNT_ERROR := s.COUNT_ERROR + 1 } ∧
    (a.ignore_errors = false →
      Effect.printErrorBody body ∈ (upload_buffer a env p s).2) ∧
    (∀ rest : List Payload,
      sinkPayloads (runUploads a env (p :: rest) s).2 = p :: rest) := by
  refine ⟨?_, ?_, fun rest => sinkPayloads_runUploads a env (p :: rest) s⟩
  · unfold upload_buffer
    simp only [hj, Bool.false_eq_true, if_false, hr]
    by_cases hi : a.ignore_errors <;> simp [hi]
  · intro hie
    unfold upload_buffer
    simp [hj, hr, hie]

/-- Witness for C8: a concrete binary payload rejected by the server. -/
theorem claim8_witness :
    (upload_buffer argsDefault envFail .invalid initialSession).1 =
      { initialSession with
          COUNT_ERROR := initialSession.COUNT_ERROR + 1 } ∧
    (argsDefault.ignore_errors = false →
      Effect.printErrorBody "not DICOM" ∈
        (upload_buffer argsDefault envFail .invalid initialSession).2) ∧
    (∀ rest : List Payload,
      sinkPayloads
        (runUploads argsDefault envFail (.invalid :: rest)
          initialSession).2 = .invalid :: rest) :=
  claim8_failed_upload_counts_error_and_continues argsDefault envFail
    .invalid initialSession "not DICOM" rfl rfl

theorem countNewStudy_append (st : String) (l1 l2 : List Effect) :
    countNewStudy st (l1 ++ l2) =
      countNewStudy st l1 + countNewStudy st l2 := by
  simp [countNewStudy, List.filter_append]

/-- The seen-studies set only grows across one sink call. -/
theorem mem_imported_upload_buffer (a : Args) (env : Net) (p : Payload)
    (s : Session) {st : String} (h : st ∈ s.IMPORTED_STUDIES) :
    st ∈ (upload_buffer a env p s).1.IMPORTED_STUDIES := by
  unfold upload_buffer
  by_cases hj : is_json p
  · simpa [hj] using h
  · simp only [hj, Bool.false_eq_true, if_false]
    cases env.post p with
    | failure body =>
      by_cases hi : a.ignore_errors <;> simpa [hi] using h
    | success info =>
      by_cases hm : info.ParentStudy ∈ s.IMPORTED_STUDIES
      · simpa [hm] using h
      · simp only [hm, if_false]
        exact List.mem_cons_of_mem _ h

/-- A study already in the seen set never gets another block in one call. -/
theorem countNewStudy_upload_buffer_of_mem (a : Args) (env : Net)
    (p : Payload) (s : Session) {st : String}
    (h : st ∈ s.IMPORTED_STUDIES) :
    countNewStudy st (upload_buffer a env p s).2 = 0 := by
  unfold upload_buffer
  by_cases hj : is_json p
  · simp [hj, countNewStudy, isNewStudyFor]
  · simp only [hj, Bool.false_eq_true, if_false]
    cases env.post p with
    | failure body =>
      by_cases hi : a.ignore_errors <;> by_cases hv : a.verbose <;>
        simp [hi, hv, countNewStudy, isNewStudyFor]
    | success info =>
      by_cases hm : info.ParentStudy ∈ s.IMPORTED_STUDIES
      · simp [hm, countNewStudy, isNewStudyFor]
      · have hne : info.ParentStudy ≠ st := fun he => hm (he ▸ h)
        simp [hm, countNewStudy, isNewStudyFor, hne]

/-- A study already in the seen set never gets another block in a run. -/
theorem countNewStudy_runUploads_of_mem (a : Args) (env : Net)
    (ps : List Payload) : ∀ s : Session, ∀ {st : String},
    st ∈ s.IMPORTED_STUDIES →
    countNewStudy st (runUploads a env ps s).2 = 0 := by
  induction ps with
  | nil => intro s st _; simp [runUploads, countNewStudy]
  | cons p rest ih =>
    intro s st h
    simp only [runUploads, countNewStudy_append]
    rw [countNewStudy_upload_buffer_of_mem a env p s h,
      ih _ (mem_imported_upload_buffer a env p s h)]

/-- For a study not yet seen, one sink call prints its block exactly when
the upload is a successful import into that study. -/
theorem countNewStudy_upload_buffer_of_not_mem (a : Args) (env : Net)
    (p : Payload) (s : Session) {st : String}
    (h : st ∉ s.IMPORTED_STUDIES) :
    countNewStudy st (upload_buffer a env p s).2 =
      (if isSuccessFor env st p then 1 else 0) := by
  unfold upload_buffer
  by_cases hj : is_json p
  · simp [hj, countNewStudy, isNewStudyFor, isSuccessFor]
  · simp only [hj, Bool.false_eq_true, if_false]
    cases hp : env.post p with
    | failure body =>
      by_cases hi : a.ignore_errors <;> by_cases hv : a.verbose <;>
        simp [hi, hv, countNewStudy, isNewStudyFor, isSuccessFor, hj, hp]
    | success info =>
      by_cases hm : info.ParentStudy ∈ s.IMPORTED_STUDIES
      · have hne : info.ParentStudy ≠ st := fun he => h (he ▸ hm)
        simp [hm, countNewStudy, isNewStudyFor, isSuccessFor, hj, hp, hne]
      · by_cases he : info.ParentStudy = st <;>
          simp [hm, countNewStudy, isNewStudyFor, isSuccessFor, hj, hp, he,
            h]

/-- For a study not yet seen, after one sink call the study is in the seen
set exactly when the upload was a successful import into that study. -/
theorem mem_imported_upload_buffer_iff (a : Args) (env : Net) (p : Payload)
    (s : Session) {st : String} (h : st ∉ s.IMPORTED_STUDIES) :
    (st ∈ (upload_buffer a env p s).1.IMPORTED_STUDIES ↔
      isSuccessFor env st p = true) := by
  unfold upload_buffer
  by_cases hj : is_json p
  · simp [hj, isSuccessFor, h]
  · simp only [hj, Bool.false_eq_true, if_false]
    cases hp : env.post p with
    | failure body =>
      by_cases hi : a.ignore_errors <;>
        simp [hi, isSuccessFor, hj, hp, h]
    | success info =>
      by_cases hm : info.ParentStudy ∈ s.IMPORTED_STUDIES
      · have hne : info.ParentStudy ≠ st := fun he => h (he ▸ hm)
        simp [hm, isSuccessFor, hj, hp, h, hne]
      · by_cases he : info.ParentStudy = st
        · simp [hm, isSuccessFor, hj, hp, h, he, List.mem_cons]
        · simp [hm, isSuccessFor, hj, hp, h, he, List.mem_cons,
            Ne.symm he]

/-- C9: within one run, for every study identifier not yet seen, the "new
study" detail block is produced exactly once — iff some upload in the run is
a successful import into that study — and never again afterwards. -/
theorem claim9_new_study_block_exactly_once (a : Args) (env : Net)
    (st : String) (ps : List Payload) (s : Session)
    (h : st ∉ s.IMPORTED_STUDIES) :
    countNewStudy st (runUploads a env ps s).2 =
      min 1 (successCount env st ps) := by
  induction ps generalizing s with
  | nil => simp [runUploads, countNewStudy, successCount]
  | cons p rest ih =>
    simp only [runUploads, countNewStudy_append]
    rw [countNewStudy_upload_buffer_of_not_mem a env p s h]
    by_cases hsucc : isSuccessFor env st p
    · have hmem : st ∈ (upload_buffer a env p s).1.IMPORTED_STUDIES :=
        (mem_imported_upload_buffer_iff a env p s h).mpr hsucc
      rw [countNewStudy_runUploads_of_mem a env rest _ hmem]
      simp only [successCount, List.filter_cons, hsucc, if_true]
      simp [Nat.min_def]
    · have hnot : st ∉ (upload_buffer a env p s).1.IMPORTED_STUDIES :=
        fun hc => hsucc ((mem_imported_upload_buffer_iff a env p s h).mp hc)
      rw [ih _ hnot]
      simp only [successCount, List.filter_cons, hsucc]
      simp [hsucc]

/-- Witness for C9: two successful uploads into the same study print the
block once. -/
theorem claim9_witness :
    countNewStudy "study1"
      (runUploads argsDefault envOk
        [.dicom ⟨[]⟩, .dicom ⟨[("PatientID", "P")]⟩] initialSession).2 =
      min 1 (successCount envOk "study1"
        [.dicom ⟨[]⟩, .dicom ⟨[("PatientID", "P")]⟩]) :=
  claim9_new_study_block_exactly_once argsDefault envOk "study1"
    [.dicom ⟨[]⟩, .dicom ⟨[("PatientID", "P")]⟩] initialSession
    (by simp [initialSession])

/-! ### Counter discipline (C10) -/

/-- One sink call preserves "at most as many seen studies as successful
imports". -/
theorem upload_buffer_studies_le (a : Args) (env : Net) (p : Payload)
    (s : Session) (h : s.IMPORTED_STUDIES.length ≤ s.COUNT_DICOM) :
    (upload_buffer a env p s).1.IMPORTED_STUDIES.length ≤
      (upload_buffer a env p s).1.COUNT_DICOM := by
  unfold upload_buffer
  by_cases hj : is_json p
  · simpa [hj] using h
  · simp only [hj, Bool.false_eq_true, if_false]
    cases env.post p with
    | failure body =>
      by_cases hi : a.ignore_errors <;> simpa [hi] using h
    | success info =>
      by_cases hm : info.ParentStudy ∈ s.IMPORTED_STUDIES
      · simp only [hm, if_true]
        exact le_trans h (Nat.le_succ _)
      · simp only [hm, if_false, List.length_cons]
        exact Nat.succ_le_succ h

/-- C10: every Upload Sink call increments exactly one of the three session
counters by one and leaves the other two unchanged; consequently the number
of seen studies never exceeds the successful-import counter at any point of
a run started from the initial session state. -/
theorem claim10_sink_counter_discipline :
    (∀ (a : Args) (env : Net) (p : Payload) (s : Session),
      ((upload_buffer a env p s).1.COUNT_JSON = s.COUNT_JSON + 1 ∧
        (upload_buffer a env p s).1.COUNT_DICOM = s.COUNT_DICOM ∧
        (upload_buffer a env p s).1.COUNT_ERROR = s.COUNT_ERROR) ∨
      ((upload_buffer a env p s).1.COUNT_JSON = s.COUNT_JSON ∧
        (upload_buffer a env p s).1.COUNT_DICOM = s.COUNT_DICOM + 1 ∧
        (upload_buffer a env p s).1.COUNT_ERROR = s.COUNT_ERROR) ∨
      ((upload_buffer a env p s).1.COUNT_JSON = s.COUNT_JSON ∧
        (upload_buffer a env p s).1.COUNT_DICOM = s.COUNT_DICOM ∧
        (upload_buffer a env p s).1.COUNT_ERROR = s.COUNT_ERROR + 1)) ∧
    (∀ (a : Args) (env : Net) (ps : List Payload),
      (runUploads a env ps initialSession).1.IMPORTED_STUDIES.length ≤
        (runUploads a env ps initialSession).1.COUNT_DICOM) := by
  constructor
  · intro a env p s
    unfold upload_buffer
    by_cases hj : is_json p
    · left; simp [hj]
    · simp only [hj, Bool.false_eq_true, if_false]
      cases env.post p with
      | failure body =>
        right; right
        by_cases hi : a.ignore_errors <;> simp [hi]
      | success info =>
        right; left
        by_cases hm : info.ParentStudy ∈ s.IMPORTED_STUDIES <;> simp [hm]
  · intro a env ps
    have hrun : ∀ (qs : List Payload) (s : Session),
        s.IMPORTED_STUDIES.length ≤ s.COUNT_DICOM →
        (runUploads a env qs s).1.IMPORTED_STUDIES.length ≤
          (runUploads a env qs s).1.COUNT_DICOM := by
      intro qs
      induction qs with
      | nil => intro s h; simpa [runUploads] using h
      | cons p rest ih =>
        intro s h
        simp only [runUploads]
        exact ih _ (upload_buffer_studies_le a env p s h)
    exact hrun ps initialSession (by simp [initialSession])

/-- C1 (code bug): for a `.gz` (and likewise `.bz2`) input holding a
compressed DICOM instance, the code never reads the opened decompression
stream; it calls `validate_dicom_tags(file_path)` on the raw compressed
bytes, so `dcmread` raises `InvalidDicomError` and the decompressed payload
never reaches Tag Repair or the Upload Sink. -/
theorem claim1_gzip_bzip2_parse_raw_bytes_and_abort :
    decode_file argsDefault envOk
      ⟨"image.dcm.gz", .gzFile .invalid (.dicom dsFull)⟩ initialSession =
      .error "InvalidDicomError" ∧
    decode_file argsDefault envOk
      ⟨"image.dcm.bz2", .bz2File .invalid (.dicom dsFull)⟩ initialSession =
      .error "InvalidDicomError" := by
  constructor <;> rfl

/-- Helper: the payloads a tar-entry loop hands to the sink are exactly the
raw bytes of the regular entries, in order. -/
theorem sinkPayloads_uploadTarEntries (a : Args) (env : Net)
    (entries : List ArchiveEntry) : ∀ s : Session,
    sinkPayloads (uploadTarEntries a env entries s).2 =
      (entries.filter fun e => e.isRegular).map fun e => e.data := by
  induction entries with
  | nil => intro s; simp [uploadTarEntries, sinkPayloads]
  | cons item rest ih =>
    intro s
    by_cases hr : item.isRegular
    · simp [uploadTarEntries, hr, sinkPayloads_append,
        sinkPayloads_upload_buffer, ih, List.filter_cons]
    · simp [uploadTarEntries, hr, ih, List.filter_cons]

/-- Helper: the payloads a zip-entry loop hands to the sink are exactly the
raw bytes of the entries with positive stored size, in order. -/
theorem sinkPayloads_uploadZipEntries (a : Args) (env : Net)
    (entries : List ArchiveEntry) : ∀ s : Session,
    sinkPayloads (uploadZipEntries a env entries s).2 =
      (entries.filter fun e => decide (0 < e.size)).map fun e => e.data := by
  induction entries with
  | nil => intro s; simp [uploadZipEntries, sinkPayloads]
  | cons item rest ih =>
    intro s
    by_cases hr : 0 < item.size
    · simp [uploadZipEntries, hr, sinkPayloads_append,
        sinkPayloads_upload_buffer, ih, List.filter_cons]
    · simp [uploadZipEntries, hr, ih, List.filter_cons]

/-- C2 counterexample: a tar archive with one regular entry that is a DICOM
image missing `PatientID` delivers exactly that raw payload to the Upload
Sink — still missing `PatientID`, and different from what Tag Repair would
have produced. -/
theorem claim2_counterexample :
    sinkPayloads (effectsOf (upload_tar argsDefault envOk "r"
      (.tarFile .plain [entryMissing]) initialSession)) =
      [.dicom dsMissing] ∧
    hasTag dsMissing "PatientID" = false ∧
    validate_dicom_tags (.dicom dsMissing) ≠
      .ok (.dicom dsMissing) := by
  refine ⟨by decide, by decide, ?_⟩
  intro hc
  have : fixTags dsMissing = dsMissing := by
    simpa [validate_dicom_tags, dcmread] using hc
  exact absurd this (by decide)

/-- C2 amended: for every container archive entry the loop selects (regular
entries for tar, positive-size entries for zip), the extracted entry bytes
are passed directly to the Upload Sink, without going through Tag Repair. -/
theorem claim2_amended_entries_bypass_tag_repair (a : Args) (env : Net)
    (s : Session) (comp : TarComp) (entries : List ArchiveEntry) :
    sinkPayloads (effectsOf
      (upload_tar a env "r" (.tarFile comp entries) s)) =
      ((entries.filter fun e => e.isRegular).map fun e => e.data) ∧
    sinkPayloads (effectsOf (upload_zip a env (.zipFile entries) s)) =
      ((entries.filter fun e => decide (0 < e.size)).map fun e =>
        e.data) := by
  constructor
  · simp [upload_tar, tarDecoderOpens, effectsOf,
      sinkPayloads_uploadTarEntries]
  · simp [upload_zip, effectsOf, sinkPayloads_uploadZipEntries]

/-- C4 counterexample: a zip archive with one directory entry and one empty
regular-file entry (N = 1 regular entries) invokes the Upload Sink zero
times, because `upload_zip` selects entries by `file_size > 0`. -/
theorem claim4_counterexample :
    (zipEntriesCex.filter fun e => e.isRegular).length = 1 ∧
    countSink (effectsOf (upload_zip argsDefault envOk
      (.zipFile zipEntriesCex) initialSession)) = 0 := by
  constructor <;> decide

/-- C4 amended: a tar archive invokes the Upload Sink exactly once per
regular-file entry (empty ones included, non-regular ones never); a zip
archive invokes it exactly once per entry with positive stored size, so
empty regular-file entries are skipped. -/
theorem claim4_amended_sink_invocation_counts (a : Args) (env : Net)
    (s : Session) (comp : TarComp) (entries : List ArchiveEntry) :
    countSink (effectsOf
      (upload_tar a env "r" (.tarFile comp entries) s)) =
      (entries.filter fun e => e.isRegular).length ∧
    countSink (effectsOf (upload_zip a env (.zipFile entries) s)) =
      (entries.filter fun e => decide (0 < e.size)).length := by
  constructor
  · simp [countSink, upload_tar, tarDecoderOpens, effectsOf,
      sinkPayloads_uploadTarEntries]
  · simp [countSink, upload_zip, effectsOf, sinkPayloads_uploadZipEntries]

/-- C5 (code bug): the `--clear` block deletes every study without ever
asking for confirmation; `args.force` is parsed but never read, and no run
configuration makes `clear_step` emit a confirmation prompt. -/
theorem claim5_clear_never_prompts :
    clear_step argsClearNoForce ["s1", "s2"] =
      [.printRemoving, .getStudiesList, .printCount 2,
        .deleteStudy "s1", .deleteStudy "s2", .printEmpty] ∧
    argsClearNoForce.force = false ∧
    (∀ (a : Args) (studies : List String),
      ClearEffect.confirmPrompt ∉ clear_step a studies) := by
  refine ⟨by decide, by decide, ?_⟩
  intro a studies
  unfold clear_step
  by_cases hc : a.clear <;> simp [hc]

/-- C6 counterexample: with `--ignore-errors --verbose` set, a `.tar` input
whose bytes cannot be opened as an archive still aborts the run fatally
instead of being skipped. -/
theorem claim6_counterexample :
    decode_file argsIgnoreVerbose envOk ⟨"broken.tar", .corrupt⟩
      initialSession = .error "tarfile.ReadError" := by
  rfl

/-- C6 amended: an input file whose bytes cannot be opened by any strategy
is a fatal error on every dispatch route, regardless of ignore-errors
mode. -/
theorem claim6_amended_unopenable_input_always_fatal (a : Args) (env : Net)
    (s : Session) (path : String) :
    isFatal (decode_file a env ⟨path, .corrupt⟩ s) = true := by
  unfold decode_file
  by_cases h1 : endswith path ".tar.bz2" <;>
    by_cases h2 : endswith path ".tar.gz" <;>
      by_cases h3 : splitext_ext path = ".zip" <;>
        by_cases h4 : splitext_ext path = ".tar" <;>
          by_cases h5 : splitext_ext path = ".bz2" <;>
            by_cases h6 : splitext_ext path = ".gz" <;>
              simp [h1, h2, h3, h4, h5, h6, upload_tar, upload_zip,
                upload_bzip2, upload_gzip, upload_file,
                validate_dicom_tags, FileBytes.rawPayload, dcmread,
                isFatal]

end UploadDicomFiles
